import Mathlib

/-! # jom: child-process engine (`src/jomlib/jomprocess.cpp`)

A shallow embedding of the process engine of jom and theorems about it:
the merge that flushes the buffered output of the two channels, the
buffered/streaming mode switch, the environment block builder, the pipe
setup retry loop and the life cycle of a `Process`.

Conventions of the embedding:

* a `QByteArray` is the list of its bytes, a `QString` the list of its
  UTF-16 code units;
* `qint64` timestamps are integers, `DWORD` values are naturals below `2^32`;
* a call of `fwrite_binary(stream, data, count)` is recorded as a `Written`
  entry of the trace a function returns, in call order;
* what the operating system answers (pipe creation, `ReadFile`,
  `CreateProcess`, `GetExitCodeProcess`, the clock) is an explicit argument;
* the locks are not modelled: every function below runs as one atomic step.
-/

namespace NMakeFile

/-! ## Data model -/

/-- Bytes of a `QByteArray`. -/
abbrev QByteArray := List Nat

/-- The struct `TimeStampedBuffer`: a captured or injected chunk and the
value of the shared clock when it was queued. -/
structure TimeStampedBuffer where
  timestamp : Int
  buffer : QByteArray
  deriving DecidableEq, Repr

/-- The target `FILE*` of an `OutputChannel`: `stdoutChannel.stream` is
`stdout`, `stderrChannel.stream` is `stderr`. -/
inductive Stream where
  | stdout
  | stderr
  deriving DecidableEq, Repr

/-- One pass through the body of the loop of `printBufferedOutput`: the
channel that was chosen and the buffer taken from the front of its queue,
whose bytes go to `fwrite_binary(channel->stream, ...)`. -/
structure Flushed where
  stream : Stream
  segment : TimeStampedBuffer
  deriving DecidableEq, Repr

/-- One call `fwrite_binary(stream, data, count)`. -/
structure Written where
  stream : Stream
  bytes : QByteArray
  deriving DecidableEq, Repr

/-- The call of `fwrite_binary` made for a flushed segment:
`fwrite_binary(channel->stream, ba.data(), ba.count())`. -/
def Flushed.written (f : Flushed) : Written :=
  ⟨f.stream, f.segment.buffer⟩

/-- Bytes handed to the writer of one stream, in call order. -/
def bytesWrittenTo (s : Stream) (ws : List Written) : QByteArray :=
  ((ws.filter (fun w => w.stream = s)).map Written.bytes).flatten

/-! ## `fwrite_binary` -/

/-- The fallback loop of `fwrite_binary` (`for (;;)` with
`chunkSize = 4096` and `k = qMin(chunkSize, count)`): the chunks passed to
`fwrite`, in order. The loop writes before it tests `k >= count`, so an
empty buffer gives one empty chunk. -/
def fwriteChunks (str : QByteArray) : List QByteArray :=
  let k := min 4096 str.length
  if k ≥ str.length then [str.take k]
  else str.take k :: fwriteChunks (str.drop k)
termination_by str.length
decreasing_by
  simp only [List.length_drop]
  omega

/-! ## `Process::printBufferedOutput` -/

/-- The loop of `Process::printBufferedOutput` on the two queues
`stdoutChannel.buffers` and `stderrChannel.buffers`. The loop runs while one
of them is not empty; the body picks `i = 1` (stderr) when the stdout queue
is empty, or when the stderr queue is not empty and
`channels[0]->buffers.first().timestamp > channels[1]->buffers.first().timestamp`,
and `i = 0` (stdout) otherwise; it writes the first buffer of that channel
and removes it. Returns the segments in the order they are written and the
two queues when the loop is left. -/
def printBufferedOutputLoop :
    List TimeStampedBuffer → List TimeStampedBuffer →
      List Flushed × List TimeStampedBuffer × List TimeStampedBuffer
  | [], [] => ([], [], [])
  | [], e :: err =>
    let r := printBufferedOutputLoop [] err
    (⟨Stream.stderr, e⟩ :: r.1, r.2)
  | o :: out, [] =>
    let r := printBufferedOutputLoop out []
    (⟨Stream.stdout, o⟩ :: r.1, r.2)
  | o :: out, e :: err =>
    if o.timestamp > e.timestamp then
      let r := printBufferedOutputLoop (o :: out) err
      (⟨Stream.stderr, e⟩ :: r.1, r.2)
    else
      let r := printBufferedOutputLoop out (e :: err)
      (⟨Stream.stdout, o⟩ :: r.1, r.2)
termination_by out err => out.length + err.length

/-! ## The state of a `Process` -/

/-- The enum `Process::ProcessState`. -/
inductive ProcessState where
  | NotRunning
  | Starting
  | Running
  deriving DecidableEq, Repr

/-- The enum `Process::ExitStatus`. -/
inductive ExitStatus where
  | NormalExit
  | CrashExit
  deriving DecidableEq, Repr

/-- The value of `Process::ProcessError` that `start` reports. -/
inductive ProcessError where
  | FailedToStart
  deriving DecidableEq, Repr

/-- The Windows constant `STILL_ACTIVE`. -/
def STILL_ACTIVE : Nat := 259

/-- The Windows constant `ERROR_SUCCESS`. -/
def ERROR_SUCCESS : Nat := 0

/-- The Windows constant `ERROR_PIPE_BUSY`. -/
def ERROR_PIPE_BUSY : Nat := 231

/-- The Windows constant `ERROR_IO_PENDING`. -/
def ERROR_IO_PENDING : Nat := 997

/-- The members of `Process` and `ProcessPrivate` that the functions below
read or write: `m_state`, `m_exitCode`, `m_exitStatus`, `m_bufferedOutput`,
`d->exitCode` and the queues `d->stdoutChannel.buffers` and
`d->stderrChannel.buffers`. Handles are kept out of the state: what the
system calls on them answer is an argument of the function that makes the
call. -/
structure Process where
  m_state : ProcessState
  m_exitCode : Int
  m_exitStatus : ExitStatus
  m_bufferedOutput : Bool
  exitCode : Nat
  stdoutBuffers : List TimeStampedBuffer
  stderrBuffers : List TimeStampedBuffer
  deriving DecidableEq, Repr

/-- The constructor `Process::Process`, with `ProcessPrivate::ProcessPrivate`. -/
def Process.new : Process :=
  { m_state := ProcessState.NotRunning
    m_exitCode := 0
    m_exitStatus := ExitStatus.NormalExit
    m_bufferedOutput := true
    exitCode := STILL_ACTIVE
    stdoutBuffers := []
    stderrBuffers := [] }

/-- The queue `buffers` of the channel that writes to the given stream. -/
def Process.buffers (p : Process) : Stream → List TimeStampedBuffer
  | Stream.stdout => p.stdoutBuffers
  | Stream.stderr => p.stderrBuffers

/-- The call `buffers.append(b)` on the channel of the given stream. -/
def Process.appendBuffer (p : Process) (s : Stream) (b : TimeStampedBuffer) : Process :=
  match s with
  | Stream.stdout => { p with stdoutBuffers := p.stdoutBuffers ++ [b] }
  | Stream.stderr => { p with stderrBuffers := p.stderrBuffers ++ [b] }

/-- What a function of `Process` lets the outside see. -/
inductive Event where
  /-- A call of `fwrite_binary`. -/
  | written (w : Written)
  /-- The signal `error(ProcessError)`. -/
  | error (e : ProcessError)
  /-- The signal `finished(int, Process::ExitStatus)`. -/
  | finished (exitCode : Int) (exitStatus : ExitStatus)
  /-- The slot `tryToRetrieveExitCode` is scheduled: by
  `QTimer::singleShot(250, ...)` or, with delay 0, by a queued
  `QMetaObject::invokeMethod`. -/
  | queued (delay : Nat)
  deriving DecidableEq, Repr

/-- True on the `finished` signal. -/
def Event.isFinished : Event → Bool
  | Event.finished _ _ => true
  | _ => false

/-- True on a call of `fwrite_binary`. -/
def Event.isWritten : Event → Bool
  | Event.written _ => true
  | _ => false

/-- The calls of `fwrite_binary` among the events, in order. -/
def writtenOf : List Event → List Written
  | [] => []
  | Event.written w :: es => w :: writtenOf es
  | _ :: es => writtenOf es

/-- How a call ends. -/
inductive Control where
  /-- The function returns to its caller. -/
  | returned
  /-- The function calls `qFatal`, which ends the program. -/
  | fatal
  /-- The event loop of `waitForFinished` is not quit by the notifications
  it is given. -/
  | blocked
  deriving DecidableEq, Repr

/-- The outcome of a call: the state it leaves, what it emitted and how
it ended. -/
structure Result where
  process : Process
  events : List Event
  control : Control
  deriving DecidableEq, Repr

/-- `Process::printBufferedOutput` on the state: the segments in the order
they are written and the state with the queues as the loop leaves them. -/
def printBufferedOutput (p : Process) : Process × List Flushed :=
  let r := printBufferedOutputLoop p.stdoutBuffers p.stderrBuffers
  ({ p with stdoutBuffers := r.2.1, stderrBuffers := r.2.2 }, r.1)

/-- `Process::setBufferedOutput(b)`. -/
def setBufferedOutput (p : Process) (b : Bool) : Result :=
  if p.m_bufferedOutput = b then ⟨p, [], Control.returned⟩
  else
    let p1 := { p with m_bufferedOutput := b }
    if !p1.m_bufferedOutput then
      let r := printBufferedOutput p1
      ⟨r.1, r.2.map (fun f => Event.written f.written), Control.returned⟩
    else ⟨p1, [], Control.returned⟩

/-- `Process::writeToStdOutBuffer(output)`; `now` is the value of
`runtime()->elapsed()`. -/
def writeToStdOutBuffer (p : Process) (now : Int) (output : QByteArray) : Result :=
  ⟨p.appendBuffer Stream.stdout ⟨now, output⟩, [], Control.returned⟩

/-- `Process::writeToStdErrBuffer(output)`; `now` is the value of
`runtime()->elapsed()`. -/
def writeToStdErrBuffer (p : Process) (now : Int) (output : QByteArray) : Result :=
  ⟨p.appendBuffer Stream.stderr ⟨now, output⟩, [], Control.returned⟩

/-- What the system answers to the two system calls of
`OutputChannel::startRead`: `peek` is the byte count `PeekNamedPipe` reports (`none` when it fails),
`readFile` is `none` when `ReadFile` succeeds and the value of
`GetLastError` otherwise. -/
structure ReadEnv where
  peek : Option Nat
  readFile : Option Nat
  deriving DecidableEq, Repr

/-- `OutputChannel::startRead`: the size given to
`intermediateOutputBuffer` and the value returned. -/
def OutputChannel.startRead (e : ReadEnv) : Nat × Bool :=
  let minReadBufferSize := 4096
  let dwRead :=
    match e.peek with
    | none => minReadBufferSize
    | some n => if n < minReadBufferSize then minReadBufferSize else n
  match e.readFile with
  | none => (dwRead, true)
  | some dwError => if dwError ≠ ERROR_IO_PENDING then (dwRead, false) else (dwRead, true)

/-- `OutputChannel::completionPortNotified(numberOfBytes, errorCode)` on the
channel of stream `s`. `buf` is the content of `intermediateOutputBuffer`,
`now` the value of `runtime()->elapsed()`, `re` what `startRead` meets when
it is called. `d->q->isBufferedOutputSet()` reads `m_bufferedOutput`. -/
def completionPortNotified (p : Process) (s : Stream) (buf : QByteArray) (now : Int)
    (numberOfBytes errorCode : Nat) (re : ReadEnv) : Result :=
  let r : Process × List Event :=
    if numberOfBytes ≠ 0 then
      if p.m_bufferedOutput then
        (p.appendBuffer s ⟨now, buf.take numberOfBytes⟩, [])
      else
        (p, [Event.written ⟨s, buf.take numberOfBytes⟩])
    else (p, [])
  if errorCode = ERROR_SUCCESS ∧ (OutputChannel.startRead re).2 = true then
    ⟨r.1, r.2, Control.returned⟩
  else
    ⟨r.1, r.2 ++ [Event.queued 0], Control.returned⟩

/-! ## `setupPipe` -/

/-- The struct `Pipe`; `none` is `INVALID_HANDLE_VALUE`. -/
structure Pipe where
  hWrite : Option Nat
  hRead : Option Nat
  deriving DecidableEq, Repr

/-- What the system answers during one call of `setupPipe`.
`createNamedPipe i` is the outcome of the call of `CreateNamedPipe` in pass
`i` of the loop (from 0): the handle, or the value of `GetLastError` when
the call returns `INVALID_HANDLE_VALUE`. `createFile i` is the handle that
`CreateFile` returns for the name made in pass `i`, `none` for
`INVALID_HANDLE_VALUE`. -/
structure PipeEnv where
  createNamedPipe : Nat → Except Nat Nat
  createFile : Nat → Option Nat

/-- How the `do ... while (--attempts > 0)` loop of `setupPipe` ends, with
the number of calls of `CreateNamedPipe` made. -/
inductive PipeLoopExit where
  /-- The `break`: the pipe was created, `hRead` is the handle. -/
  | created (hRead : Nat) (calls : Nat)
  /-- The `return false` on an error other than `ERROR_PIPE_BUSY`. -/
  | failed (calls : Nat)
  /-- The loop condition became false; `hRead` is `INVALID_HANDLE_VALUE`. -/
  | exhausted (calls : Nat)
  deriving DecidableEq, Repr

/-- The loop of `setupPipe`, entered with `attempts` at its current value
and `calls` passes already made. The source enters it with
`attempts = 1000`; the case `attempts = 0` is not reached from there. -/
def setupPipeLoop (env : PipeEnv) : Nat → Nat → PipeLoopExit
  | 0, calls => PipeLoopExit.exhausted calls
  | n + 1, calls =>
    match env.createNamedPipe calls with
    | Except.ok h => PipeLoopExit.created h (calls + 1)
    | Except.error dwError =>
      if dwError ≠ ERROR_PIPE_BUSY then PipeLoopExit.failed (calls + 1)
      else if n > 0 then setupPipeLoop env n (calls + 1)
      else PipeLoopExit.exhausted (calls + 1)

/-- The value `setupPipe` returns, the pipe it leaves and the number of
calls of `CreateNamedPipe` it made. -/
structure SetupPipeResult where
  ok : Bool
  pipe : Pipe
  calls : Nat
  deriving DecidableEq, Repr

/-- The part of `setupPipe` after the loop: `CreateFile` on the last name
made, `return false` when it gives `INVALID_HANDLE_VALUE`, else the two
handles are stored in the pipe and `true` is returned. The pipe starts as
`Pipe()` leaves it, with both handles invalid. -/
def setupPipeConnect (env : PipeEnv) (hRead : Option Nat) (calls : Nat) : SetupPipeResult :=
  match env.createFile (calls - 1) with
  | none => ⟨false, ⟨none, none⟩, calls⟩
  | some hWrite => ⟨true, ⟨some hWrite, hRead⟩, calls⟩

/-- The function `setupPipe`. -/
def setupPipe (env : PipeEnv) : SetupPipeResult :=
  match setupPipeLoop env 1000 0 with
  | PipeLoopExit.failed calls => ⟨false, ⟨none, none⟩, calls⟩
  | PipeLoopExit.created h calls => setupPipeConnect env (some h) calls
  | PipeLoopExit.exhausted calls => setupPipeConnect env none calls

/-! ## Life cycle -/

/-- What the system answers during one call of `Process::start`. -/
structure StartEnv where
  stdinPipe : PipeEnv
  stdoutPipe : PipeEnv
  stderrPipe : PipeEnv
  stdoutRead : ReadEnv
  stderrRead : ReadEnv
  createProcess : Bool

/-- `ProcessPrivate::startRead`. -/
def ProcessPrivate.startRead (env : StartEnv) : Bool :=
  (OutputChannel.startRead env.stdoutRead).2 && (OutputChannel.startRead env.stderrRead).2

/-- `Process::start`. -/
def start (p : Process) (env : StartEnv) : Result :=
  let p1 := { p with m_state := ProcessState.Starting }
  if !(setupPipe env.stdinPipe).ok then ⟨p1, [], Control.fatal⟩
  else if !(setupPipe env.stdoutPipe).ok then ⟨p1, [], Control.fatal⟩
  else if !(setupPipe env.stderrPipe).ok then ⟨p1, [], Control.fatal⟩
  else if !ProcessPrivate.startRead env then
    ⟨{ p1 with m_state := ProcessState.NotRunning },
      [Event.error ProcessError.FailedToStart], Control.returned⟩
  else if !env.createProcess then
    ⟨{ p1 with m_state := ProcessState.NotRunning },
      [Event.error ProcessError.FailedToStart], Control.returned⟩
  else ⟨{ p1 with m_state := ProcessState.Running }, [], Control.returned⟩

/-- The conversion of a `DWORD` to `int` in `m_exitCode = d->exitCode`.
The member `m_exitCode` is declared in `jomprocess.h`, which is not among
the sources; it is the `int` that the signal
`finished(int, Process::ExitStatus)` carries. -/
def toInt32 (c : Nat) : Int :=
  if c % 2 ^ 32 < 2 ^ 31 then ((c % 2 ^ 32 : Nat) : Int) else ((c % 2 ^ 32 : Nat) : Int) - 2 ^ 32

/-- The test `m_exitCode == 0xf291 || m_exitCode < 0` of
`Process::onProcessFinished`. -/
def crashed (m_exitCode : Int) : Bool :=
  m_exitCode == 0xf291 || decide (m_exitCode < 0)

/-- `Process::onProcessFinished`. -/
def onProcessFinished (p : Process) : Result :=
  if p.m_state ≠ ProcessState.Running then ⟨p, [], Control.returned⟩
  else
    let r := printBufferedOutput p
    let m_exitCode := toInt32 p.exitCode
    let exitStatus := if crashed m_exitCode then ExitStatus.CrashExit else ExitStatus.NormalExit
    ⟨{ r.1 with m_state := ProcessState.NotRunning, m_exitCode := m_exitCode,
                exitCode := STILL_ACTIVE },
      r.2.map (fun f => Event.written f.written) ++ [Event.finished m_exitCode exitStatus],
      Control.returned⟩

/-- `Process::tryToRetrieveExitCode`; `getExitCodeProcess` is what
`GetExitCodeProcess` stores in `d->exitCode` when it is called, `none` when
the call fails. -/
def tryToRetrieveExitCode (p : Process) (getExitCodeProcess : Option Nat) : Result :=
  let exitCode :=
    if p.exitCode = STILL_ACTIVE then
      match getExitCodeProcess with
      | some c => c
      | none => STILL_ACTIVE
    else p.exitCode
  let p1 := { p with exitCode := exitCode }
  if exitCode = STILL_ACTIVE then ⟨p1, [Event.queued 250], Control.returned⟩
  else onProcessFinished p1

/-- What the event loop of `waitForFinished` dispatches: the slot
`tryToRetrieveExitCode` (from the notifier, the timer or a queued call), or
a completion of a read on one of the channels. -/
inductive Notification where
  | tryToRetrieveExitCode (getExitCodeProcess : Option Nat)
  | completionPortNotified (s : Stream) (buf : QByteArray) (now : Int)
      (numberOfBytes errorCode : Nat) (re : ReadEnv)
  deriving DecidableEq, Repr

/-- One notification handled inside the event loop. -/
def handleNotification (p : Process) : Notification → Result
  | Notification.tryToRetrieveExitCode g => tryToRetrieveExitCode p g
  | Notification.completionPortNotified s buf now n e re =>
    completionPortNotified p s buf now n e re

/-- The call `eventLoop.exec()` in `waitForFinished`: the notifications are
handled in turn and the loop is quit by the first `finished` signal. The
third component is false when the notifications end before that. -/
def eventLoopExec (p : Process) : List Notification → Process × List Event × Bool
  | [] => (p, [], false)
  | n :: ns =>
    let r := handleNotification p n
    if r.events.any Event.isFinished then (r.process, r.events, true)
    else
      let t := eventLoopExec r.process ns
      (t.1, r.events ++ t.2.1, t.2.2)

/-- `Process::waitForFinished`; `ns` is what the event loop dispatches
while the call waits. -/
def waitForFinished (p : Process) (ns : List Notification) : Result :=
  if p.m_state ≠ ProcessState.Running then ⟨p, [], Control.returned⟩
  else
    let t := eventLoopExec p ns
    if t.2.2 then ⟨{ t.1 with m_state := ProcessState.NotRunning }, t.2.1, Control.returned⟩
    else ⟨t.1, t.2.1, Control.blocked⟩

/-- The calls made on a `Process`, each with what its environment answers. -/
inductive Op where
  | start (env : StartEnv)
  | tryToRetrieveExitCode (getExitCodeProcess : Option Nat)
  | onProcessFinished
  | waitForFinished (ns : List Notification)
  | setBufferedOutput (b : Bool)
  | writeToStdOutBuffer (now : Int) (output : QByteArray)
  | writeToStdErrBuffer (now : Int) (output : QByteArray)
  | completionPortNotified (s : Stream) (buf : QByteArray) (now : Int)
      (numberOfBytes errorCode : Nat) (re : ReadEnv)

/-- True on a call of `start`. -/
def Op.isStart : Op → Bool
  | Op.start _ => true
  | _ => false

/-- One call on the process. -/
def step (p : Process) : Op → Result
  | Op.start env => start p env
  | Op.tryToRetrieveExitCode g => tryToRetrieveExitCode p g
  | Op.onProcessFinished => onProcessFinished p
  | Op.waitForFinished ns => waitForFinished p ns
  | Op.setBufferedOutput b => setBufferedOutput p b
  | Op.writeToStdOutBuffer now output => writeToStdOutBuffer p now output
  | Op.writeToStdErrBuffer now output => writeToStdErrBuffer p now output
  | Op.completionPortNotified s buf now n e re => completionPortNotified p s buf now n e re

/-- A sequence of calls: each call with its outcome, in order. The sequence
ends with the first call that does not return. -/
def run (p : Process) : List Op → List (Op × Result)
  | [] => []
  | op :: ops =>
    let r := step p op
    if r.control = Control.returned then (op, r) :: run r.process ops
    else [(op, r)]

/-- All events of a sequence of calls, in order. -/
def eventsOf (rs : List (Op × Result)) : List Event :=
  (rs.map (fun x => x.2.events)).flatten

/-- The state after a sequence of calls that started in `p`. -/
def finalProcess (p : Process) (rs : List (Op × Result)) : Process :=
  match rs.getLast? with
  | none => p
  | some x => x.2.process

/-- Number of `finished` signals raised by a sequence of calls. -/
def finishedCount (rs : List (Op × Result)) : Nat :=
  (eventsOf rs).countP Event.isFinished

/-- Number of transitions into `Running`: the calls of `start` that leave
`m_state == Running`. -/
def enteredRunning (rs : List (Op × Result)) : Nat :=
  rs.countP (fun x => x.1.isStart && decide (x.2.process.m_state = ProcessState.Running))

/-! ## `createEnvBlock` -/

/-- Queue order of one channel: timestamps do not decrease. -/
def TimeOrdered (q : List TimeStampedBuffer) : Prop :=
  q.Pairwise (fun a b => a.timestamp ≤ b.timestamp)

/-- True on the calls that bring output: the two injection calls and the
completion of a read. -/
def Op.isOutput : Op → Bool
  | Op.writeToStdOutBuffer _ _ => true
  | Op.writeToStdErrBuffer _ _ => true
  | Op.completionPortNotified _ _ _ _ _ _ => true
  | _ => false

/-- The reading of the shared clock during a call that brings output. -/
def Op.clock : Op → Int
  | Op.writeToStdOutBuffer now _ => now
  | Op.writeToStdErrBuffer now _ => now
  | Op.completionPortNotified _ _ now _ _ _ => now
  | _ => 0

/-- The chunk a call brings, with its channel and stamped with the reading
of the clock: the injected bytes, or the bytes a completion reports when
their count is not zero. -/
def Op.chunk : Op → Option (Stream × TimeStampedBuffer)
  | Op.writeToStdOutBuffer now output => some (Stream.stdout, ⟨now, output⟩)
  | Op.writeToStdErrBuffer now output => some (Stream.stderr, ⟨now, output⟩)
  | Op.completionPortNotified s buf now n _ _ =>
    if n ≠ 0 then some (s, ⟨now, buf.take n⟩) else none
  | _ => none

/-- The chunks a sequence of calls brings for one channel, in call order. -/
def chunksFor (s : Stream) (ops : List Op) : List TimeStampedBuffer :=
  ((ops.filterMap Op.chunk).filter (fun c => c.1 = s)).map (fun c => c.2)

/-- A call that raises no `finished` signal and leaves `m_state` as it
was. -/
def Quiet (p : Process) (r : Result) : Prop :=
  r.events.countP Event.isFinished = 0 ∧ r.process.m_state = p.m_state

/-- A call that raises one `finished` signal, made in state `Running` and
leaving the state `NotRunning`. -/
def Finishing (p : Process) (r : Result) : Prop :=
  r.events.countP Event.isFinished = 1 ∧ p.m_state = ProcessState.Running ∧
    r.process.m_state = ProcessState.NotRunning

/-- A pipe environment without collision: `CreateNamedPipe` gives the handle
`h` and `CreateFile` the handle `h + 1`. -/
def PipeEnv.working (h : Nat) : PipeEnv :=
  ⟨fun _ => Except.ok h, fun _ => some (h + 1)⟩

/-- A pipe environment in which every name collides: each call of
`CreateNamedPipe` fails with `ERROR_PIPE_BUSY`, and `CreateFile` opens the
pipe of that name, which some other process owns, with handle 7. -/
def PipeEnv.alwaysBusy : PipeEnv :=
  ⟨fun _ => Except.error ERROR_PIPE_BUSY, fun _ => some 7⟩

/-- A pipe environment in which `CreateNamedPipe` fails with
`ERROR_ACCESS_DENIED` (5). -/
def PipeEnv.denied : PipeEnv :=
  ⟨fun _ => Except.error 5, fun _ => none⟩

/-- A pipe environment in which the first two names collide and the third
call of `CreateNamedPipe` gives the handle 40. -/
def PipeEnv.busyTwice : PipeEnv :=
  ⟨fun i => if i < 2 then Except.error ERROR_PIPE_BUSY else Except.ok 40, fun _ => some 41⟩

/-- A read environment in which `ReadFile` reports `ERROR_IO_PENDING`, the
usual answer to an asynchronous read. -/
def ReadEnv.pending : ReadEnv :=
  ⟨none, some ERROR_IO_PENDING⟩

/-- An environment in which `start` succeeds. -/
def StartEnv.working : StartEnv :=
  ⟨PipeEnv.working 10, PipeEnv.working 20, PipeEnv.working 30, ReadEnv.pending,
    ReadEnv.pending, true⟩

/-- An environment in which the stdin pipe is set up and the stdout pipe is
not. -/
def StartEnv.stdoutPipeFails : StartEnv :=
  ⟨PipeEnv.working 10, PipeEnv.denied, PipeEnv.working 30, ReadEnv.pending,
    ReadEnv.pending, true⟩

/-- An environment in which the pipes are set up, the reads are issued and
`CreateProcess` fails. -/
def StartEnv.createProcessFails : StartEnv :=
  ⟨PipeEnv.working 10, PipeEnv.working 20, PipeEnv.working 30, ReadEnv.pending,
    ReadEnv.pending, false⟩

/-- A process in state `Running` whose exit code has not been read. -/
def Process.running : Process :=
  { Process.new with m_state := ProcessState.Running }

/-- A process in buffered mode with two segments in each queue. -/
def Process.bufferedExample : Process :=
  { Process.new with stdoutBuffers := [⟨1, [65]⟩, ⟨3, [66]⟩],
                     stderrBuffers := [⟨1, [67]⟩, ⟨2, [68]⟩] }

/-- A process in streaming mode. -/
def Process.streamingExample : Process :=
  { Process.new with m_bufferedOutput := false }

/-- A life cycle: a start that fails, a poll that cannot read an exit code,
a start that succeeds, a poll that finds the process alive, a poll that
finds exit code 3, a direct call of `onProcessFinished` and a wait. -/
def lifeCycleRun : List Op :=
  [Op.start StartEnv.createProcessFails, Op.tryToRetrieveExitCode none,
    Op.start StartEnv.working, Op.tryToRetrieveExitCode (some STILL_ACTIVE),
    Op.tryToRetrieveExitCode (some 3), Op.onProcessFinished, Op.waitForFinished []]

/-- What goes on after a start that failed: a poll that reads exit code 3,
a direct call of `onProcessFinished` and a wait. -/
def afterFailedStartRun : List Op :=
  [Op.tryToRetrieveExitCode (some 3), Op.onProcessFinished, Op.waitForFinished []]

/-- A run in streaming mode: the process is started and switched to
streaming, the bytes `[65]` are injected into the stdout queue when the
clock shows 1, a read of the stdout pipe completes with the byte `[66]` when
the clock shows 2, and the process ends with exit code 0. -/
def streamingInjectionRun : List Op :=
  [Op.start StartEnv.working, Op.setBufferedOutput false, Op.writeToStdOutBuffer 1 [65],
    Op.completionPortNotified Stream.stdout [66] 2 1 ERROR_SUCCESS ReadEnv.pending,
    Op.tryToRetrieveExitCode (some 0)]

/-- A run in buffered mode: a read of the stderr pipe completes with `[66]`
at time 1, `[65]` is injected into the stdout queue at time 2, a read of the
stdout pipe completes with `[67]` at time 3. -/
def bufferedInjectionRun : List Op :=
  [Op.completionPortNotified Stream.stderr [66] 1 1 ERROR_SUCCESS ReadEnv.pending,
    Op.writeToStdOutBuffer 2 [65],
    Op.completionPortNotified Stream.stdout [67] 3 1 ERROR_SUCCESS ReadEnv.pending]

/-! ## The fallback of `fwrite_binary` -/

/-- The chunks the fallback loop of `fwrite_binary` passes to `fwrite` are,
joined, the whole buffer, and none is longer than 4096 bytes. -/
theorem fwriteChunks_flatten (str : QByteArray) :
    (fwriteChunks str).flatten = str ∧ ∀ c ∈ fwriteChunks str, c.length ≤ 4096 := by
  induction str using fwriteChunks.induct with
  | case1 str k h =>
    rw [fwriteChunks]
    simp only [ge_iff_le] at h
    simp only [ge_iff_le, h, if_true, List.flatten_cons, List.flatten_nil,
      List.append_nil, List.mem_singleton, forall_eq, List.length_take]
    have hk : k = min 4096 str.length := rfl
    exact ⟨List.take_of_length_le h, by omega⟩
  | case2 str k h ih =>
    rw [fwriteChunks]
    simp only [ge_iff_le] at h
    simp only [ge_iff_le, h, if_false, List.flatten_cons, ih.1, List.take_append_drop,
      List.mem_cons, forall_eq_or_imp, List.length_take, true_and]
    have hk : k = min 4096 str.length := rfl
    exact ⟨by omega, ih.2⟩

/-! ## The flush merge -/

theorem printBufferedOutputLoop_queues (out err : List TimeStampedBuffer) :
    (printBufferedOutputLoop out err).2 = ([], []) := by
  induction out, err using printBufferedOutputLoop.induct with
  | case1 => simp [printBufferedOutputLoop]
  | case2 e err ih => simpa [printBufferedOutputLoop] using ih
  | case3 o out ih => simpa [printBufferedOutputLoop] using ih
  | case4 o out e err h ih => simpa [printBufferedOutputLoop, h] using ih
  | case5 o out e err h ih => simpa [printBufferedOutputLoop, h] using ih

theorem printBufferedOutputLoop_stdout (out err : List TimeStampedBuffer) :
    (((printBufferedOutputLoop out err).1.filter
      (fun f => f.stream = Stream.stdout)).map Flushed.segment) = out := by
  induction out, err using printBufferedOutputLoop.induct with
  | case1 => simp [printBufferedOutputLoop]
  | case2 e err ih => simpa [printBufferedOutputLoop] using ih
  | case3 o out ih => simpa [printBufferedOutputLoop] using ih
  | case4 o out e err h ih => simpa [printBufferedOutputLoop, h] using ih
  | case5 o out e err h ih => simpa [printBufferedOutputLoop, h] using ih

theorem printBufferedOutputLoop_stderr (out err : List TimeStampedBuffer) :
    (((printBufferedOutputLoop out err).1.filter
      (fun f => f.stream = Stream.stderr)).map Flushed.segment) = err := by
  induction out, err using printBufferedOutputLoop.induct with
  | case1 => simp [printBufferedOutputLoop]
  | case2 e err ih => simpa [printBufferedOutputLoop] using ih
  | case3 o out ih => simpa [printBufferedOutputLoop] using ih
  | case4 o out e err h ih => simpa [printBufferedOutputLoop, h] using ih
  | case5 o out e err h ih => simpa [printBufferedOutputLoop, h] using ih

theorem printBufferedOutputLoop_length (out err : List TimeStampedBuffer) :
    (printBufferedOutputLoop out err).1.length = out.length + err.length := by
  induction out, err using printBufferedOutputLoop.induct with
  | case1 => simp [printBufferedOutputLoop]
  | case2 e err ih => simp [printBufferedOutputLoop] at ih ⊢; omega
  | case3 o out ih => simp [printBufferedOutputLoop] at ih ⊢; omega
  | case4 o out e err h ih => simp [printBufferedOutputLoop, h] at ih ⊢; omega
  | case5 o out e err h ih => simp [printBufferedOutputLoop, h] at ih ⊢; omega

theorem printBufferedOutputLoop_mem (out err : List TimeStampedBuffer) (f : Flushed)
    (hf : f ∈ (printBufferedOutputLoop out err).1) :
    (f.stream = Stream.stdout ∧ f.segment ∈ out) ∨
      (f.stream = Stream.stderr ∧ f.segment ∈ err) := by
  induction out, err using printBufferedOutputLoop.induct with
  | case1 => simp [printBufferedOutputLoop] at hf
  | case2 e err ih =>
    simp only [printBufferedOutputLoop, List.mem_cons] at hf
    rcases hf with rfl | hf
    · simp
    · rcases ih hf with h | h
      · exact Or.inl h
      · exact Or.inr ⟨h.1, List.mem_cons_of_mem _ h.2⟩
  | case3 o out ih =>
    simp only [printBufferedOutputLoop, List.mem_cons] at hf
    rcases hf with rfl | hf
    · simp
    · rcases ih hf with h | h
      · exact Or.inl ⟨h.1, List.mem_cons_of_mem _ h.2⟩
      · exact Or.inr h
  | case4 o out e err h ih =>
    simp only [printBufferedOutputLoop, h, if_true, List.mem_cons] at hf
    rcases hf with rfl | hf
    · simp
    · rcases ih hf with h | h
      · exact Or.inl h
      · exact Or.inr ⟨h.1, List.mem_cons_of_mem _ h.2⟩
  | case5 o out e err h ih =>
    simp only [printBufferedOutputLoop, h, if_false, List.mem_cons] at hf
    rcases hf with rfl | hf
    · simp
    · rcases ih hf with h | h
      · exact Or.inl ⟨h.1, List.mem_cons_of_mem _ h.2⟩
      · exact Or.inr h

theorem printBufferedOutputLoop_sorted (out err : List TimeStampedBuffer)
    (hout : TimeOrdered out) (herr : TimeOrdered err) :
    (printBufferedOutputLoop out err).1.Pairwise
      (fun a b => a.segment.timestamp ≤ b.segment.timestamp) := by
  induction out, err using printBufferedOutputLoop.induct with
  | case1 => simp [printBufferedOutputLoop]
  | case2 e err ih =>
    simp only [printBufferedOutputLoop]
    have he := List.pairwise_cons.mp herr
    refine List.pairwise_cons.mpr ⟨?_, ih hout he.2⟩
    intro f hf
    rcases printBufferedOutputLoop_mem _ _ f hf with h | h
    · simp at h
    · exact he.1 _ h.2
  | case3 o out ih =>
    simp only [printBufferedOutputLoop]
    have ho := List.pairwise_cons.mp hout
    refine List.pairwise_cons.mpr ⟨?_, ih ho.2 herr⟩
    intro f hf
    rcases printBufferedOutputLoop_mem _ _ f hf with h | h
    · exact ho.1 _ h.2
    · simp at h
  | case4 o out e err h ih =>
    simp only [printBufferedOutputLoop, h, if_true]
    have he := List.pairwise_cons.mp herr
    have ho := List.pairwise_cons.mp hout
    refine List.pairwise_cons.mpr ⟨?_, ih hout he.2⟩
    intro f hf
    rcases printBufferedOutputLoop_mem _ _ f hf with h1 | h1
    · rcases List.mem_cons.mp h1.2 with h2 | h2
      · rw [h2]; exact le_of_lt h
      · exact le_trans (le_of_lt h) (ho.1 _ h2)
    · exact he.1 _ h1.2
  | case5 o out e err h ih =>
    simp only [printBufferedOutputLoop, h, if_false]
    have he := List.pairwise_cons.mp herr
    have ho := List.pairwise_cons.mp hout
    refine List.pairwise_cons.mpr ⟨?_, ih ho.2 herr⟩
    intro f hf
    have hle : o.timestamp ≤ e.timestamp := not_lt.mp h
    rcases printBufferedOutputLoop_mem _ _ f hf with h1 | h1
    · exact ho.1 _ h1.2
    · rcases List.mem_cons.mp h1.2 with h2 | h2
      · rw [h2]; exact hle
      · exact le_trans hle (he.1 _ h2)

theorem printBufferedOutputLoop_ties (out err : List TimeStampedBuffer)
    (hout : TimeOrdered out) :
    (printBufferedOutputLoop out err).1.Pairwise
      (fun a b => a.segment.timestamp = b.segment.timestamp →
        ¬ (a.stream = Stream.stderr ∧ b.stream = Stream.stdout)) := by
  induction out, err using printBufferedOutputLoop.induct with
  | case1 => simp [printBufferedOutputLoop]
  | case2 e err ih =>
    simp only [printBufferedOutputLoop]
    refine List.pairwise_cons.mpr ⟨?_, ih hout⟩
    intro f hf _ hs
    rcases printBufferedOutputLoop_mem _ _ f hf with h | h
    · simp at h
    · rw [h.1] at hs; simp at hs
  | case3 o out ih =>
    simp only [printBufferedOutputLoop]
    have ho := List.pairwise_cons.mp hout
    refine List.pairwise_cons.mpr ⟨?_, ih ho.2⟩
    intro f _ _ hs
    simp at hs
  | case4 o out e err h ih =>
    simp only [printBufferedOutputLoop, h, if_true]
    have ho := List.pairwise_cons.mp hout
    refine List.pairwise_cons.mpr ⟨?_, ih hout⟩
    intro f hf heq hs
    rcases printBufferedOutputLoop_mem _ _ f hf with h1 | h1
    · have hge : o.timestamp ≤ f.segment.timestamp := by
        rcases List.mem_cons.mp h1.2 with h2 | h2
        · rw [h2]
        · exact ho.1 _ h2
      simp only at heq
      omega
    · rw [h1.1] at hs; simp at hs
  | case5 o out e err h ih =>
    simp only [printBufferedOutputLoop, h, if_false]
    have ho := List.pairwise_cons.mp hout
    refine List.pairwise_cons.mpr ⟨?_, ih ho.2⟩
    intro f _ _ hs
    simp at hs

/-- C1. Flush order: when the timestamps of each of the two queues do not
decrease in queue order, the segments `printBufferedOutput` writes are in
non-decreasing timestamp order, and of a stdout segment and a stderr segment
with the same timestamp the stderr one is never the one written first. -/
theorem printBufferedOutput_time_ordered (p : Process)
    (hout : TimeOrdered p.stdoutBuffers) (herr : TimeOrdered p.stderrBuffers) :
    (printBufferedOutput p).2.Pairwise
        (fun a b => a.segment.timestamp ≤ b.segment.timestamp) ∧
      (printBufferedOutput p).2.Pairwise
        (fun a b => a.segment.timestamp = b.segment.timestamp →
          ¬ (a.stream = Stream.stderr ∧ b.stream = Stream.stdout)) :=
  ⟨printBufferedOutputLoop_sorted _ _ hout herr, printBufferedOutputLoop_ties _ _ hout⟩

/-- Witness for C1: stdout holds segments stamped 1 and 3, stderr segments
stamped 1 and 2. -/
theorem printBufferedOutput_time_ordered_witness :
    TimeOrdered [⟨1, [65]⟩, ⟨3, [66]⟩] ∧ TimeOrdered [⟨1, [67]⟩, ⟨2, [68]⟩] ∧
      ((printBufferedOutput
          { Process.new with stdoutBuffers := [⟨1, [65]⟩, ⟨3, [66]⟩],
                             stderrBuffers := [⟨1, [67]⟩, ⟨2, [68]⟩] }).2.Pairwise
        (fun a b => a.segment.timestamp ≤ b.segment.timestamp) ∧
      (printBufferedOutput
          { Process.new with stdoutBuffers := [⟨1, [65]⟩, ⟨3, [66]⟩],
                             stderrBuffers := [⟨1, [67]⟩, ⟨2, [68]⟩] }).2.Pairwise
        (fun a b => a.segment.timestamp = b.segment.timestamp →
          ¬ (a.stream = Stream.stderr ∧ b.stream = Stream.stdout))) :=
  ⟨by simp [TimeOrdered], by simp [TimeOrdered],
    printBufferedOutput_time_ordered
      { Process.new with stdoutBuffers := [⟨1, [65]⟩, ⟨3, [66]⟩],
                         stderrBuffers := [⟨1, [67]⟩, ⟨2, [68]⟩] }
      (by simp [TimeOrdered]) (by simp [TimeOrdered])⟩

theorem bytesWrittenTo_flushed (s : Stream) (fs : List Flushed) :
    bytesWrittenTo s (fs.map Flushed.written) =
      (((fs.filter (fun f => f.stream = s)).map Flushed.segment).map
        TimeStampedBuffer.buffer).flatten := by
  induction fs with
  | nil => simp [bytesWrittenTo]
  | cons f fs ih =>
    unfold bytesWrittenTo at ih ⊢
    by_cases h : f.stream = s
    · simp [Flushed.written, h, ih]
    · simp [Flushed.written, h, ih]

/-- C2. Flush preserves content, for any two queues: `printBufferedOutput`
returns with both queues empty; the segments written to stdout are the
stdout queue, one for one and in queue order, and those written to stderr
are the stderr queue; so the bytes handed to each writer are the
concatenation of the buffers of its queue, and the number of writes is the
number of queued segments. -/
theorem printBufferedOutput_preserves_content (p : Process) :
    (printBufferedOutput p).1.stdoutBuffers = [] ∧
      (printBufferedOutput p).1.stderrBuffers = [] ∧
      ((printBufferedOutput p).2.filter (fun f => f.stream = Stream.stdout)).map
        Flushed.segment = p.stdoutBuffers ∧
      ((printBufferedOutput p).2.filter (fun f => f.stream = Stream.stderr)).map
        Flushed.segment = p.stderrBuffers ∧
      bytesWrittenTo Stream.stdout ((printBufferedOutput p).2.map Flushed.written) =
        (p.stdoutBuffers.map TimeStampedBuffer.buffer).flatten ∧
      bytesWrittenTo Stream.stderr ((printBufferedOutput p).2.map Flushed.written) =
        (p.stderrBuffers.map TimeStampedBuffer.buffer).flatten ∧
      (printBufferedOutput p).2.length = p.stdoutBuffers.length + p.stderrBuffers.length := by
  have hq := printBufferedOutputLoop_queues p.stdoutBuffers p.stderrBuffers
  refine ⟨?_, ?_, printBufferedOutputLoop_stdout _ _, printBufferedOutputLoop_stderr _ _,
    ?_, ?_, printBufferedOutputLoop_length _ _⟩
  · simp [printBufferedOutput, hq]
  · simp [printBufferedOutput, hq]
  · rw [bytesWrittenTo_flushed]
    simp only [printBufferedOutput]
    rw [printBufferedOutputLoop_stdout]
  · rw [bytesWrittenTo_flushed]
    simp only [printBufferedOutput]
    rw [printBufferedOutputLoop_stderr]

/-! ## Buffered and streaming mode -/

theorem printBufferedOutput_mode (p : Process) :
    (printBufferedOutput p).1.m_bufferedOutput = p.m_bufferedOutput ∧
      (printBufferedOutput p).1.m_state = p.m_state := by
  simp [printBufferedOutput]

theorem appendBuffer_mode (p : Process) (s : Stream) (b : TimeStampedBuffer) :
    (p.appendBuffer s b).m_bufferedOutput = p.m_bufferedOutput ∧
      (p.appendBuffer s b).m_state = p.m_state := by
  cases s <;> simp [Process.appendBuffer]

theorem completionPortNotified_mode (p : Process) (s : Stream) (buf : QByteArray) (now : Int)
    (n e : Nat) (re : ReadEnv) :
    (completionPortNotified p s buf now n e re).process.m_bufferedOutput = p.m_bufferedOutput ∧
      (completionPortNotified p s buf now n e re).process.m_state = p.m_state := by
  unfold completionPortNotified
  have h := appendBuffer_mode p s ⟨now, buf.take n⟩
  split_ifs <;> simp [h]

theorem onProcessFinished_mode (p : Process) :
    (onProcessFinished p).process.m_bufferedOutput = p.m_bufferedOutput := by
  unfold onProcessFinished
  split_ifs
  · rfl
  · simp [printBufferedOutput]

theorem tryToRetrieveExitCode_mode (p : Process) (g : Option Nat) :
    (tryToRetrieveExitCode p g).process.m_bufferedOutput = p.m_bufferedOutput := by
  unfold tryToRetrieveExitCode
  simp only
  split_ifs
  all_goals first | rfl | exact onProcessFinished_mode _

theorem handleNotification_mode (p : Process) (n : Notification) :
    (handleNotification p n).process.m_bufferedOutput = p.m_bufferedOutput := by
  cases n with
  | tryToRetrieveExitCode g => exact tryToRetrieveExitCode_mode p g
  | completionPortNotified s buf now n e re =>
    exact (completionPortNotified_mode p s buf now n e re).1

theorem eventLoopExec_mode (p : Process) (ns : List Notification) :
    (eventLoopExec p ns).1.m_bufferedOutput = p.m_bufferedOutput := by
  induction ns generalizing p with
  | nil => rfl
  | cons n ns ih =>
    simp only [eventLoopExec]
    split_ifs
    · exact handleNotification_mode p n
    · simp only
      rw [ih, handleNotification_mode]

theorem step_mode (p : Process) (op : Op) (hop : ∀ b, op ≠ Op.setBufferedOutput b) :
    (step p op).process.m_bufferedOutput = p.m_bufferedOutput := by
  cases op with
  | start env =>
    simp only [step, start]
    split_ifs <;> rfl
  | tryToRetrieveExitCode g => exact tryToRetrieveExitCode_mode p g
  | onProcessFinished => exact onProcessFinished_mode p
  | waitForFinished ns =>
    simp only [step, waitForFinished]
    split_ifs
    · rfl
    · exact eventLoopExec_mode p ns
    · exact eventLoopExec_mode p ns
  | setBufferedOutput b => exact absurd rfl (hop b)
  | writeToStdOutBuffer now output => exact (appendBuffer_mode p _ _).1
  | writeToStdErrBuffer now output => exact (appendBuffer_mode p _ _).1
  | completionPortNotified s buf now n e re =>
    exact (completionPortNotified_mode p s buf now n e re).1

/-- C10. Mode switch: in buffered mode `setBufferedOutput(false)` returns
after writing the queued segments, as many writes as segments were queued
and in the order of `printBufferedOutput`, with both queues empty and the
mode set to streaming. In streaming mode a completion with a byte count
that is not zero writes these bytes to the stream of its channel and leaves
queues and mode as they were, and no call other than
`setBufferedOutput(true)` leaves streaming mode. -/
theorem setBufferedOutput_false_flushes_then_streams (p q : Process)
    (hp : p.m_bufferedOutput = true) (hq : q.m_bufferedOutput = false)
    (s : Stream) (buf : QByteArray) (now : Int) (numberOfBytes errorCode : Nat) (re : ReadEnv)
    (hn : numberOfBytes ≠ 0) (op : Op) (hop : op ≠ Op.setBufferedOutput true) :
    ((setBufferedOutput p false).control = Control.returned ∧
      (setBufferedOutput p false).events =
        (printBufferedOutput p).2.map (fun f => Event.written f.written) ∧
      (setBufferedOutput p false).events.length =
        p.stdoutBuffers.length + p.stderrBuffers.length ∧
      (setBufferedOutput p false).process.stdoutBuffers = [] ∧
      (setBufferedOutput p false).process.stderrBuffers = [] ∧
      (setBufferedOutput p false).process.m_bufferedOutput = false) ∧
    (writtenOf (completionPortNotified q s buf now numberOfBytes errorCode re).events =
        [⟨s, buf.take numberOfBytes⟩] ∧
      (completionPortNotified q s buf now numberOfBytes errorCode re).process = q) ∧
    (step q op).process.m_bufferedOutput = false := by
  refine ⟨?_, ?_, ?_⟩
  · have hq := printBufferedOutputLoop_queues p.stdoutBuffers p.stderrBuffers
    have hl := printBufferedOutputLoop_length p.stdoutBuffers p.stderrBuffers
    simp [setBufferedOutput, hp, printBufferedOutput, hq, hl]
  · unfold completionPortNotified
    split_ifs <;> simp_all [writtenOf]
  · by_cases h : ∀ b, op ≠ Op.setBufferedOutput b
    · rw [step_mode q op h, hq]
    · push_neg at h
      obtain ⟨b, rfl⟩ := h
      cases b with
      | true => exact absurd rfl hop
      | false => simp [step, setBufferedOutput, hq]

/-! ## Injected output -/

theorem writtenOf_append (a b : List Event) :
    writtenOf (a ++ b) = writtenOf a ++ writtenOf b := by
  induction a with
  | nil => rfl
  | cons e a ih => cases e <;> simp [writtenOf, ih]

theorem finalProcess_cons (p : Process) (x : Op × Result) (rs : List (Op × Result)) :
    finalProcess p (x :: rs) = finalProcess x.2.process rs := by
  cases rs with
  | nil => simp [finalProcess]
  | cons y rs =>
    simp only [finalProcess, List.getLast?_cons_cons]
    cases h : (y :: rs).getLast? with
    | none => simp at h
    | some z => rfl

theorem chunksFor_cons (s : Stream) (op : Op) (ops : List Op) :
    chunksFor s (op :: ops) = chunksFor s [op] ++ chunksFor s ops := by
  unfold chunksFor
  cases h : op.chunk with
  | none => simp [List.filterMap_cons, h]
  | some c => simp [List.filterMap_cons, h, List.filter_cons]; split_ifs <;> simp

theorem chunk_clock (op : Op) (c : Stream × TimeStampedBuffer) (h : op.chunk = some c) :
    c.2.timestamp = op.clock := by
  cases op <;> simp [Op.chunk] at h
  case writeToStdOutBuffer => rw [← h]; rfl
  case writeToStdErrBuffer => rw [← h]; rfl
  case completionPortNotified => rw [← h.2]; rfl

theorem mem_chunksFor (s : Stream) (ops : List Op) (b : TimeStampedBuffer)
    (hb : b ∈ chunksFor s ops) : ∃ op ∈ ops, b.timestamp = op.clock := by
  unfold chunksFor at hb
  simp only [List.mem_map, List.mem_filter, List.mem_filterMap] at hb
  obtain ⟨c, ⟨⟨op, hop, hc⟩, _⟩, rfl⟩ := hb
  exact ⟨op, hop, chunk_clock op c hc⟩

theorem timeOrdered_chunksFor (s : Stream) (ops : List Op)
    (hclock : (ops.map Op.clock).Pairwise (fun a b => a ≤ b)) :
    TimeOrdered (chunksFor s ops) := by
  induction ops with
  | nil => simp [chunksFor, TimeOrdered]
  | cons op ops ih =>
    rw [List.map_cons, List.pairwise_cons] at hclock
    rw [chunksFor_cons]
    unfold TimeOrdered at ih ⊢
    refine List.pairwise_append.mpr ⟨?_, ih hclock.2, ?_⟩
    · unfold chunksFor
      cases h : op.chunk with
      | none => simp [h]
      | some c => simp [h, List.filter_cons]; split_ifs <;> simp
    · intro a ha b hb
      obtain ⟨op1, hop1, h1⟩ := mem_chunksFor s [op] a ha
      obtain ⟨op2, hop2, h2⟩ := mem_chunksFor s ops b hb
      simp only [List.mem_singleton] at hop1
      subst hop1
      rw [h1, h2]
      exact hclock.1 _ (List.mem_map_of_mem _ hop2)

theorem timeOrdered_append_chunksFor (s : Stream) (q : List TimeStampedBuffer) (ops : List Op)
    (hq : TimeOrdered q) (hclock : (ops.map Op.clock).Pairwise (fun a b => a ≤ b))
    (hpast : ∀ b ∈ q, ∀ op ∈ ops, b.timestamp ≤ op.clock) :
    TimeOrdered (q ++ chunksFor s ops) := by
  unfold TimeOrdered
  refine List.pairwise_append.mpr ⟨hq, timeOrdered_chunksFor s ops hclock, ?_⟩
  intro a ha b hb
  obtain ⟨op, hop, h⟩ := mem_chunksFor s ops b hb
  rw [h]
  exact hpast a ha op hop

theorem step_output_buffered (p : Process) (op : Op) (hmode : p.m_bufferedOutput = true)
    (hop : op.isOutput = true) :
    (step p op).control = Control.returned ∧ writtenOf (step p op).events = [] ∧
      (step p op).process.m_bufferedOutput = true ∧
      (step p op).process.stdoutBuffers = p.stdoutBuffers ++ chunksFor Stream.stdout [op] ∧
      (step p op).process.stderrBuffers = p.stderrBuffers ++ chunksFor Stream.stderr [op] := by
  cases op with
  | start env => simp [Op.isOutput] at hop
  | tryToRetrieveExitCode g => simp [Op.isOutput] at hop
  | onProcessFinished => simp [Op.isOutput] at hop
  | waitForFinished ns => simp [Op.isOutput] at hop
  | setBufferedOutput b => simp [Op.isOutput] at hop
  | writeToStdOutBuffer now output =>
    simp [step, writeToStdOutBuffer, Process.appendBuffer, writtenOf, chunksFor, Op.chunk, hmode]
  | writeToStdErrBuffer now output =>
    simp [step, writeToStdErrBuffer, Process.appendBuffer, writtenOf, chunksFor, Op.chunk, hmode]
  | completionPortNotified s buf now n e re =>
    by_cases hn : n = 0
    · subst hn
      cases s <;>
        simp only [step, completionPortNotified, chunksFor] <;>
        split_ifs <;>
        simp_all [Op.chunk, writtenOf]
    · cases s <;>
        simp only [step, completionPortNotified, chunksFor] <;>
        split_ifs <;>
        simp [hn, hmode, Op.chunk, writtenOf, Process.appendBuffer]

theorem run_output_buffered (p : Process) (ops : List Op) (hmode : p.m_bufferedOutput = true)
    (hops : ∀ op ∈ ops, op.isOutput = true) :
    writtenOf (eventsOf (run p ops)) = [] ∧
      (finalProcess p (run p ops)).stdoutBuffers =
        p.stdoutBuffers ++ chunksFor Stream.stdout ops ∧
      (finalProcess p (run p ops)).stderrBuffers =
        p.stderrBuffers ++ chunksFor Stream.stderr ops := by
  induction ops generalizing p with
  | nil => simp [run, eventsOf, writtenOf, finalProcess, chunksFor]
  | cons op ops ih =>
    obtain ⟨hc, hw, hm, ho, he⟩ :=
      step_output_buffered p op hmode (hops op (List.mem_cons_self _ _))
    obtain ⟨ih1, ih2, ih3⟩ :=
      ih (step p op).process hm (fun o h => hops o (List.mem_cons_of_mem _ h))
    simp only [run, hc, if_true]
    rw [finalProcess_cons, chunksFor_cons Stream.stdout, chunksFor_cons Stream.stderr]
    refine ⟨?_, ?_, ?_⟩
    · unfold eventsOf at ih1 ⊢
      simp only [List.map_cons, List.flatten_cons, writtenOf_append, hw, ih1, List.append_nil]
    · simp only [ih2, ho, List.append_assoc]
    · simp only [ih3, he, List.append_assoc]

theorem start_working (p : Process) :
    start p StartEnv.working =
      ⟨{ p with m_state := ProcessState.Running }, [], Control.returned⟩ := by
  rfl

/-- C9, counterexample. In streaming mode the chunk injected at time 1 is
still in the queue when the chunk captured at time 2 is written: `[66]`
reaches stdout before `[65]`, which is written by the flush at the end. -/
theorem streaming_injection_written_late :
    writtenOf (eventsOf (run Process.new streamingInjectionRun)) =
      [⟨Stream.stdout, [66]⟩, ⟨Stream.stdout, [65]⟩] := by
  simp [streamingInjectionRun, run, step, start_working, setBufferedOutput, Process.new,
    printBufferedOutput, printBufferedOutputLoop, writeToStdOutBuffer, Process.appendBuffer,
    completionPortNotified, tryToRetrieveExitCode, onProcessFinished, STILL_ACTIVE,
    ERROR_SUCCESS, OutputChannel.startRead, ReadEnv.pending, eventsOf, writtenOf,
    Flushed.written]

/-- C9, amended. In buffered mode, for calls that inject output or complete
a read, each stamped by a clock that does not go back, and queues that are
in time order and not stamped later than these calls: nothing is written
while the calls run, every chunk is queued on its channel in call order, and
the flush that follows writes all segments in non-decreasing timestamp
order, so a chunk is written after every chunk stamped earlier and before
every chunk stamped later. In either mode an injection call writes nothing:
it appends the stamped chunk to the queue of its channel. -/
theorem buffered_output_flushed_in_clock_order (p : Process) (ops : List Op)
    (hmode : p.m_bufferedOutput = true)
    (hops : ∀ op ∈ ops, op.isOutput = true)
    (hclock : (ops.map Op.clock).Pairwise (fun a b => a ≤ b))
    (hout : TimeOrdered p.stdoutBuffers) (herr : TimeOrdered p.stderrBuffers)
    (hpast : ∀ b ∈ p.stdoutBuffers ++ p.stderrBuffers, ∀ op ∈ ops, b.timestamp ≤ op.clock) :
    writtenOf (eventsOf (run p ops)) = [] ∧
      (finalProcess p (run p ops)).stdoutBuffers =
        p.stdoutBuffers ++ chunksFor Stream.stdout ops ∧
      (finalProcess p (run p ops)).stderrBuffers =
        p.stderrBuffers ++ chunksFor Stream.stderr ops ∧
      (printBufferedOutput (finalProcess p (run p ops))).2.Pairwise
        (fun a b => a.segment.timestamp ≤ b.segment.timestamp) ∧
      ((printBufferedOutput (finalProcess p (run p ops))).2.filter
        (fun f => f.stream = Stream.stdout)).map Flushed.segment =
          p.stdoutBuffers ++ chunksFor Stream.stdout ops ∧
      ((printBufferedOutput (finalProcess p (run p ops))).2.filter
        (fun f => f.stream = Stream.stderr)).map Flushed.segment =
          p.stderrBuffers ++ chunksFor Stream.stderr ops ∧
      (∀ (q : Process) (now : Int) (output : QByteArray),
        writeToStdOutBuffer q now output =
            ⟨q.appendBuffer Stream.stdout ⟨now, output⟩, [], Control.returned⟩ ∧
          writeToStdErrBuffer q now output =
            ⟨q.appendBuffer Stream.stderr ⟨now, output⟩, [], Control.returned⟩) := by
  obtain ⟨h1, h2, h3⟩ := run_output_buffered p ops hmode hops
  have ho : TimeOrdered (finalProcess p (run p ops)).stdoutBuffers := by
    rw [h2]
    exact timeOrdered_append_chunksFor _ _ _ hout hclock
      (fun b hb => hpast b (List.mem_append_left _ hb))
  have he : TimeOrdered (finalProcess p (run p ops)).stderrBuffers := by
    rw [h3]
    exact timeOrdered_append_chunksFor _ _ _ herr hclock
      (fun b hb => hpast b (List.mem_append_right _ hb))
  refine ⟨h1, h2, h3, printBufferedOutputLoop_sorted _ _ ho he, ?_, ?_, fun _ _ _ => ⟨rfl, rfl⟩⟩
  · rw [← h2]; exact printBufferedOutputLoop_stdout _ _
  · rw [← h3]; exact printBufferedOutputLoop_stderr _ _

/-- Witness for C9: a new process in buffered mode and a run that captures
on stderr at time 1, injects on stdout at time 2 and captures on stdout at
time 3. -/
theorem buffered_output_flushed_in_clock_order_witness :
    (Process.new.m_bufferedOutput = true ∧
      (∀ op ∈ bufferedInjectionRun, op.isOutput = true) ∧
      (bufferedInjectionRun.map Op.clock).Pairwise (fun a b => a ≤ b) ∧
      TimeOrdered Process.new.stdoutBuffers ∧ TimeOrdered Process.new.stderrBuffers ∧
      (∀ b ∈ Process.new.stdoutBuffers ++ Process.new.stderrBuffers,
        ∀ op ∈ bufferedInjectionRun, b.timestamp ≤ op.clock)) ∧
    (writtenOf (eventsOf (run Process.new bufferedInjectionRun)) = [] ∧
      (finalProcess Process.new (run Process.new bufferedInjectionRun)).stdoutBuffers =
        Process.new.stdoutBuffers ++ chunksFor Stream.stdout bufferedInjectionRun ∧
      (finalProcess Process.new (run Process.new bufferedInjectionRun)).stderrBuffers =
        Process.new.stderrBuffers ++ chunksFor Stream.stderr bufferedInjectionRun ∧
      (printBufferedOutput
          (finalProcess Process.new (run Process.new bufferedInjectionRun))).2.Pairwise
        (fun a b => a.segment.timestamp ≤ b.segment.timestamp) ∧
      ((printBufferedOutput
          (finalProcess Process.new (run Process.new bufferedInjectionRun))).2.filter
        (fun f => f.stream = Stream.stdout)).map Flushed.segment =
          Process.new.stdoutBuffers ++ chunksFor Stream.stdout bufferedInjectionRun ∧
      ((printBufferedOutput
          (finalProcess Process.new (run Process.new bufferedInjectionRun))).2.filter
        (fun f => f.stream = Stream.stderr)).map Flushed.segment =
          Process.new.stderrBuffers ++ chunksFor Stream.stderr bufferedInjectionRun ∧
      (∀ (q : Process) (now : Int) (output : QByteArray),
        writeToStdOutBuffer q now output =
            ⟨q.appendBuffer Stream.stdout ⟨now, output⟩, [], Control.returned⟩ ∧
          writeToStdErrBuffer q now output =
            ⟨q.appendBuffer Stream.stderr ⟨now, output⟩, [], Control.returned⟩)) :=
  ⟨⟨rfl, by simp [bufferedInjectionRun, Op.isOutput],
      by simp [bufferedInjectionRun, Op.clock],
      by simp [TimeOrdered, Process.new], by simp [TimeOrdered, Process.new],
      by simp [Process.new]⟩,
    buffered_output_flushed_in_clock_order Process.new bufferedInjectionRun rfl
      (by simp [bufferedInjectionRun, Op.isOutput])
      (by simp [bufferedInjectionRun, Op.clock])
      (by simp [TimeOrdered, Process.new]) (by simp [TimeOrdered, Process.new])
      (by simp [Process.new])⟩

/-- Witness for C10: two segments in each queue are flushed by the switch,
and a completion with one byte is handled in streaming mode. -/
theorem setBufferedOutput_false_flushes_then_streams_witness :
    (Process.bufferedExample.m_bufferedOutput = true ∧
      Process.streamingExample.m_bufferedOutput = false ∧ (1 : Nat) ≠ 0 ∧
      Op.onProcessFinished ≠ Op.setBufferedOutput true) ∧
    (setBufferedOutput Process.bufferedExample false).events.length = 2 + 2 ∧
    writtenOf (completionPortNotified Process.streamingExample Stream.stdout [66] 2 1
      ERROR_SUCCESS ReadEnv.pending).events = [⟨Stream.stdout, [66]⟩] ∧
    (step Process.streamingExample Op.onProcessFinished).process.m_bufferedOutput = false :=
  have h := setBufferedOutput_false_flushes_then_streams Process.bufferedExample
    Process.streamingExample rfl rfl Stream.stdout [66] 2 1 ERROR_SUCCESS ReadEnv.pending
    (by decide) Op.onProcessFinished (by simp)
  ⟨⟨rfl, rfl, by decide, by simp⟩, h.1.2.2.1, h.2.1.1, h.2.2⟩

/-! ## Exit classification -/

theorem crashed_toInt32 (c : Nat) (hc : c < 2 ^ 32) :
    crashed (toInt32 c) = true ↔ (c = 0xF291 ∨ 2 ^ 31 ≤ c) := by
  unfold crashed toInt32
  rw [Nat.mod_eq_of_lt hc]
  split_ifs with h
  · simp only [Bool.or_eq_true, beq_iff_eq, decide_eq_true_eq]
    constructor
    · rintro (h1 | h1)
      · left; exact_mod_cast h1
      · omega
    · rintro (h1 | h1)
      · left; exact_mod_cast h1
      · omega
  · simp only [Bool.or_eq_true, beq_iff_eq, decide_eq_true_eq]
    constructor
    · intro _; right; omega
    · intro _; right; omega

/-- C5. Exit classification: when `GetExitCodeProcess` reports a 32-bit
exit code `c` other than `STILL_ACTIVE` for a running process,
`tryToRetrieveExitCode` ends in `onProcessFinished`, whose last event is
`finished(m_exitCode, status)` with `m_exitCode` the signed reading of `c`
(negative exactly when `c >= 0x80000000`) and `status` equal to `CrashExit`
exactly when `c = 0xF291` or `c >= 0x80000000`, and `NormalExit` otherwise.
The code `0xF291` is a crash exit, the codes 0 and 1 are normal exits. -/
theorem exit_classification (p : Process) (c : Nat) (hc : c < 2 ^ 32)
    (hactive : c ≠ STILL_ACTIVE) (hrun : p.m_state = ProcessState.Running)
    (hstill : p.exitCode = STILL_ACTIVE) :
    (tryToRetrieveExitCode p (some c)).events =
        (printBufferedOutput p).2.map (fun f => Event.written f.written) ++
          [Event.finished (toInt32 c)
            (if c = 0xF291 ∨ 2 ^ 31 ≤ c then ExitStatus.CrashExit else ExitStatus.NormalExit)] ∧
      (tryToRetrieveExitCode p (some c)).process.m_exitCode = toInt32 c ∧
      (toInt32 c < 0 ↔ 2 ^ 31 ≤ c) ∧
      (onProcessFinished { Process.running with exitCode := 0xF291 }).events =
        [Event.finished 0xF291 ExitStatus.CrashExit] ∧
      (onProcessFinished { Process.running with exitCode := 0 }).events =
        [Event.finished 0 ExitStatus.NormalExit] ∧
      (onProcessFinished { Process.running with exitCode := 1 }).events =
        [Event.finished 1 ExitStatus.NormalExit] := by
  have hcr := crashed_toInt32 c hc
  refine ⟨?_, ?_, ?_, ?_, ?_, ?_⟩
  · simp only [tryToRetrieveExitCode, hstill, if_true, hactive, if_false, onProcessFinished,
      hrun, ne_eq, not_true_eq_false]
    by_cases h : c = 0xF291 ∨ 2 ^ 31 ≤ c
    · rw [if_pos h]
      simp [hcr.mpr h, printBufferedOutput]
    · rw [if_neg h]
      have h2 : crashed (toInt32 c) = false := by
        cases hb : crashed (toInt32 c) with
        | true => exact absurd (hcr.mp hb) h
        | false => rfl
      simp [h2, printBufferedOutput]
  · simp [tryToRetrieveExitCode, hstill, hactive, onProcessFinished, hrun]
  · unfold toInt32
    rw [Nat.mod_eq_of_lt hc]
    split_ifs <;> omega
  · simp [onProcessFinished, Process.running, Process.new, printBufferedOutput,
      printBufferedOutputLoop, toInt32, crashed]
  · simp [onProcessFinished, Process.running, Process.new, printBufferedOutput,
      printBufferedOutputLoop, toInt32, crashed]
  · simp [onProcessFinished, Process.running, Process.new, printBufferedOutput,
      printBufferedOutputLoop, toInt32, crashed]

/-- Witness for C5: the exit code `0xC0000005` of an access violation. -/
theorem exit_classification_witness :
    (0xC0000005 < 2 ^ 32 ∧ 0xC0000005 ≠ STILL_ACTIVE ∧
      Process.running.m_state = ProcessState.Running ∧
      Process.running.exitCode = STILL_ACTIVE) ∧
    (tryToRetrieveExitCode Process.running (some 0xC0000005)).events =
        (printBufferedOutput Process.running).2.map (fun f => Event.written f.written) ++
          [Event.finished (toInt32 0xC0000005)
            (if 0xC0000005 = 0xF291 ∨ 2 ^ 31 ≤ 0xC0000005 then ExitStatus.CrashExit
              else ExitStatus.NormalExit)] :=
  ⟨⟨by decide, by decide, rfl, rfl⟩,
    (exit_classification Process.running 0xC0000005 (by decide) (by decide) rfl rfl).1⟩

/-! ## `setupPipe` -/

theorem setupPipeLoop_busy (env : PipeEnv) (n calls : Nat)
    (hbusy : ∀ i, calls ≤ i → i < calls + n → env.createNamedPipe i = Except.error ERROR_PIPE_BUSY) :
    setupPipeLoop env n calls = PipeLoopExit.exhausted (calls + n) := by
  induction n generalizing calls with
  | zero => rfl
  | succ n ih =>
    have h0 := hbusy calls (le_refl _) (by omega)
    simp only [setupPipeLoop, h0, ne_eq, not_true_eq_false, if_false]
    split_ifs with hn
    · rw [ih (calls + 1) (fun i h1 h2 => hbusy i (by omega) (by omega))]
      congr 1
      omega
    · have : n = 0 := by omega
      subst this
      rfl

theorem setupPipeLoop_created (env : PipeEnv) (n calls k h : Nat)
    (hbusy : ∀ i, calls ≤ i → i < calls + k → env.createNamedPipe i = Except.error ERROR_PIPE_BUSY)
    (hk : k < n) (hok : env.createNamedPipe (calls + k) = Except.ok h) :
    setupPipeLoop env n calls = PipeLoopExit.created h (calls + k + 1) := by
  induction k generalizing n calls with
  | zero =>
    obtain ⟨m, rfl⟩ : ∃ m, n = m + 1 := ⟨n - 1, by omega⟩
    simp only [Nat.add_zero] at hok
    simp [setupPipeLoop, hok]
  | succ k ih =>
    obtain ⟨m, rfl⟩ : ∃ m, n = m + 1 := ⟨n - 1, by omega⟩
    have h0 := hbusy calls (le_refl _) (by omega)
    have hm : m > 0 := by omega
    simp only [setupPipeLoop, h0, ne_eq, not_true_eq_false, if_false, hm, if_true]
    rw [ih m (calls + 1) (fun i h1 h2 => hbusy i (by omega) (by omega)) (by omega)
      (by rw [← hok]; congr 1; omega)]
    congr 1
    omega

theorem setupPipeLoop_calls (env : PipeEnv) (n calls : Nat) :
    match setupPipeLoop env n calls with
    | PipeLoopExit.created _ c => c ≤ calls + n
    | PipeLoopExit.failed c => c ≤ calls + n
    | PipeLoopExit.exhausted c => c ≤ calls + n := by
  induction n generalizing calls with
  | zero => simp [setupPipeLoop]
  | succ n ih =>
    simp only [setupPipeLoop]
    cases hc : env.createNamedPipe calls with
    | ok h => simp only; omega
    | error e =>
      simp only
      split_ifs
      · simp only; omega
      · have := ih (calls + 1)
        revert this
        cases setupPipeLoop env n (calls + 1) <;> simp only <;> omega
      · simp only; omega

/-- The retry budget: `setupPipe` calls `CreateNamedPipe` at most 1000
times. -/
theorem setupPipe_calls_le (env : PipeEnv) : (setupPipe env).calls ≤ 1000 := by
  have h := setupPipeLoop_calls env 1000 0
  unfold setupPipe
  revert h
  cases setupPipeLoop env 1000 0 <;> simp only [setupPipeConnect] <;> intro h
  · split <;> simpa using h
  · simpa using h
  · split <;> simpa using h

/-- The first name that does not collide: when the calls before call `k`
(counted from 1) report `ERROR_PIPE_BUSY`, call `k` gives the handle `h`
and `CreateFile` opens the write side `w`, `setupPipe` returns true after
`k` calls with these two handles. -/
theorem setupPipe_first_free_name (env : PipeEnv) (k h w : Nat) (hk1 : 1 ≤ k) (hk : k ≤ 1000)
    (hbusy : ∀ i, i < k - 1 → env.createNamedPipe i = Except.error ERROR_PIPE_BUSY)
    (hok : env.createNamedPipe (k - 1) = Except.ok h)
    (hw : env.createFile (k - 1) = some w) :
    setupPipe env = ⟨true, ⟨some w, some h⟩, k⟩ := by
  have hl := setupPipeLoop_created env 1000 0 (k - 1) h
    (fun i _ h2 => hbusy i (by omega)) (by omega) (by simpa using hok)
  have hk2 : 0 + (k - 1) + 1 = k := by omega
  rw [hk2] at hl
  simp [setupPipe, hl, setupPipeConnect, hw]

/-- Two collisions, then a free name: `setupPipe` returns true after three
calls with the handle of the third. -/
theorem setupPipe_busyTwice :
    setupPipe PipeEnv.busyTwice = ⟨true, ⟨some 41, some 40⟩, 3⟩ :=
  setupPipe_first_free_name PipeEnv.busyTwice 3 40 41 (by decide) (by decide)
    (fun i hi => by
      have h2 : i < 2 := hi
      simp [PipeEnv.busyTwice, h2])
    rfl rfl

/-- C7, the failing input. When all 1000 calls of `CreateNamedPipe` report
`ERROR_PIPE_BUSY` the loop ends with `hRead == INVALID_HANDLE_VALUE`, and
when `CreateFile` then opens the pipe that owns the last name, `setupPipe`
returns true after 1000 calls with an invalid read handle. -/
theorem setupPipe_all_busy_returns_true :
    setupPipe PipeEnv.alwaysBusy = ⟨true, ⟨some 7, none⟩, 1000⟩ := by
  have hl := setupPipeLoop_busy PipeEnv.alwaysBusy 1000 0 (fun _ _ _ => rfl)
  unfold setupPipe
  rw [hl]
  rfl

/-! ## `Process::start` -/

/-- C6, counterexample. With the stdin pipe set up and the stdout pipe not,
`start` ends in `qFatal`: no `error(FailedToStart)` is emitted and the
state is left at `Starting`. -/
theorem start_stdout_pipe_failure_is_fatal :
    start Process.new StartEnv.stdoutPipeFails =
      ⟨{ Process.new with m_state := ProcessState.Starting }, [], Control.fatal⟩ ∧
    (setupPipe StartEnv.stdoutPipeFails.stdinPipe).ok = true := by
  decide

/-- C6, amended. When one of the three pipes (stdin, stdout or stderr)
cannot be set up, `start` ends in `qFatal` without an event. When the three
pipes are set up and the first read on a channel cannot be issued or
`CreateProcess` fails, `start` emits `error(FailedToStart)` and nothing
else, returns, and leaves the state `NotRunning`. -/
theorem start_failure_reporting (p : Process) (env : StartEnv) :
    (((setupPipe env.stdinPipe).ok = false ∨ (setupPipe env.stdoutPipe).ok = false ∨
        (setupPipe env.stderrPipe).ok = false) →
      start p env = ⟨{ p with m_state := ProcessState.Starting }, [], Control.fatal⟩) ∧
    ((setupPipe env.stdinPipe).ok = true → (setupPipe env.stdoutPipe).ok = true →
      (setupPipe env.stderrPipe).ok = true →
      (ProcessPrivate.startRead env = false ∨ env.createProcess = false) →
      start p env = ⟨{ p with m_state := ProcessState.NotRunning },
        [Event.error ProcessError.FailedToStart], Control.returned⟩) := by
  constructor
  · intro h
    unfold start
    rcases h with h | h | h
    · simp [h]
    · cases h1 : (setupPipe env.stdinPipe).ok <;> simp [h]
    · cases h1 : (setupPipe env.stdinPipe).ok <;>
        cases h2 : (setupPipe env.stdoutPipe).ok <;> simp [h]
  · intro h1 h2 h3 h
    unfold start
    rcases h with h | h
    · simp [h1, h2, h3, h]
    · cases h4 : ProcessPrivate.startRead env <;> simp [h1, h2, h3, h]

/-- Witness for C6: the stdout pipe fails in one environment, `CreateProcess`
fails in the other. -/
theorem start_failure_reporting_witness :
    start Process.new StartEnv.stdoutPipeFails =
        ⟨{ Process.new with m_state := ProcessState.Starting }, [], Control.fatal⟩ ∧
      start Process.new StartEnv.createProcessFails =
        ⟨{ Process.new with m_state := ProcessState.NotRunning },
          [Event.error ProcessError.FailedToStart], Control.returned⟩ :=
  ⟨(start_failure_reporting Process.new StartEnv.stdoutPipeFails).1
      (Or.inr (Or.inl (by decide))),
    (start_failure_reporting Process.new StartEnv.createProcessFails).2
      (by decide) (by decide) (by decide) (Or.inr rfl)⟩

/-! ## One completion event -/

theorem countP_isFinished_written (fs : List Flushed) :
    (fs.map (fun f => Event.written f.written)).countP Event.isFinished = 0 := by
  induction fs with
  | nil => rfl
  | cons f fs ih => simp [List.countP_cons, Event.isFinished, ih]

theorem onProcessFinished_cases (p : Process) :
    Quiet p (onProcessFinished p) ∨ Finishing p (onProcessFinished p) := by
  unfold onProcessFinished
  split_ifs with h
  · exact Or.inl ⟨rfl, rfl⟩
  · right
    refine ⟨?_, not_not.mp h, rfl⟩
    simp [List.countP_append, countP_isFinished_written, Event.isFinished]

theorem tryToRetrieveExitCode_cases (p : Process) (g : Option Nat) :
    Quiet p (tryToRetrieveExitCode p g) ∨ Finishing p (tryToRetrieveExitCode p g) := by
  unfold tryToRetrieveExitCode
  simp only
  split_ifs
  all_goals first
    | exact Or.inl ⟨by simp [Event.isFinished], rfl⟩
    | exact onProcessFinished_cases _

theorem completionPortNotified_quiet (p : Process) (s : Stream) (buf : QByteArray) (now : Int)
    (n e : Nat) (re : ReadEnv) : Quiet p (completionPortNotified p s buf now n e re) := by
  refine ⟨?_, (completionPortNotified_mode p s buf now n e re).2⟩
  unfold completionPortNotified
  split_ifs <;> simp [Event.isFinished]

theorem handleNotification_cases (p : Process) (n : Notification) :
    Quiet p (handleNotification p n) ∨ Finishing p (handleNotification p n) := by
  cases n with
  | tryToRetrieveExitCode g => exact tryToRetrieveExitCode_cases p g
  | completionPortNotified s buf now n e re =>
    exact Or.inl (completionPortNotified_quiet p s buf now n e re)

theorem any_isFinished_iff (es : List Event) :
    es.any Event.isFinished = true ↔ 0 < es.countP Event.isFinished := by
  rw [List.countP_pos_iff, List.any_eq_true]

theorem eventLoopExec_cases (p : Process) (ns : List Notification) :
    ((eventLoopExec p ns).2.2 = false ∧
        (eventLoopExec p ns).2.1.countP Event.isFinished = 0 ∧
        (eventLoopExec p ns).1.m_state = p.m_state) ∨
      ((eventLoopExec p ns).2.2 = true ∧
        (eventLoopExec p ns).2.1.countP Event.isFinished = 1 ∧
        p.m_state = ProcessState.Running ∧
        (eventLoopExec p ns).1.m_state = ProcessState.NotRunning) := by
  induction ns generalizing p with
  | nil => exact Or.inl ⟨rfl, rfl, rfl⟩
  | cons n ns ih =>
    simp only [eventLoopExec]
    rcases handleNotification_cases p n with h | h
    · have hany : (handleNotification p n).events.any Event.isFinished = false := by
        cases hb : (handleNotification p n).events.any Event.isFinished with
        | false => rfl
        | true =>
          have := (any_isFinished_iff _).mp hb
          rw [h.1] at this
          exact absurd this (lt_irrefl 0)
      rw [if_neg (by rw [hany]; exact Bool.false_ne_true)]
      simp only [List.countP_append, h.1, Nat.zero_add]
      rcases ih (handleNotification p n).process with h2 | h2
      · exact Or.inl ⟨h2.1, h2.2.1, h2.2.2.trans h.2⟩
      · exact Or.inr ⟨h2.1, h2.2.1, h.2 ▸ h2.2.2.1, h2.2.2.2⟩
    · have hany : (handleNotification p n).events.any Event.isFinished = true := by
        rw [any_isFinished_iff, h.1]
        exact Nat.one_pos
      rw [if_pos hany]
      exact Or.inr ⟨rfl, h.1, h.2.1, h.2.2⟩

theorem waitForFinished_cases (p : Process) (ns : List Notification) :
    Quiet p (waitForFinished p ns) ∨ Finishing p (waitForFinished p ns) := by
  simp only [waitForFinished]
  split_ifs with h1 h2
  · exact Or.inl ⟨rfl, rfl⟩
  · rcases eventLoopExec_cases p ns with h | h
    · rw [h.1] at h2; exact absurd h2 (by simp)
    · exact Or.inr ⟨h.2.1, h.2.2.1, rfl⟩
  · rcases eventLoopExec_cases p ns with h | h
    · exact Or.inl ⟨h.2.1, h.2.2⟩
    · exact absurd h.1 h2

theorem setBufferedOutput_quiet (p : Process) (b : Bool) : Quiet p (setBufferedOutput p b) := by
  simp only [setBufferedOutput]
  split_ifs
  · exact ⟨rfl, rfl⟩
  · exact ⟨countP_isFinished_written _, rfl⟩
  · exact ⟨rfl, rfl⟩

theorem start_no_finished (p : Process) (env : StartEnv) :
    (start p env).events.countP Event.isFinished = 0 := by
  unfold start
  split_ifs <;> simp [Event.isFinished]

theorem step_cases (p : Process) (op : Op) (hop : op.isStart = false) :
    Quiet p (step p op) ∨ Finishing p (step p op) := by
  cases op with
  | start env => simp [Op.isStart] at hop
  | tryToRetrieveExitCode g => exact tryToRetrieveExitCode_cases p g
  | onProcessFinished => exact onProcessFinished_cases p
  | waitForFinished ns => exact waitForFinished_cases p ns
  | setBufferedOutput b => exact Or.inl (setBufferedOutput_quiet p b)
  | writeToStdOutBuffer now output => exact Or.inl ⟨rfl, (appendBuffer_mode p _ _).2⟩
  | writeToStdErrBuffer now output => exact Or.inl ⟨rfl, (appendBuffer_mode p _ _).2⟩
  | completionPortNotified s buf now n e re =>
    exact Or.inl (completionPortNotified_quiet p s buf now n e re)

theorem step_finished_spec (p : Process) (op : Op) :
    (step p op).events.countP Event.isFinished ≤ 1 ∧
      (0 < (step p op).events.countP Event.isFinished →
        p.m_state = ProcessState.Running ∧
          (step p op).process.m_state = ProcessState.NotRunning) := by
  cases hs : op.isStart with
  | true =>
    cases op <;> simp [Op.isStart] at hs
    simp [step, start_no_finished]
  | false =>
    rcases step_cases p op hs with h | h
    · rw [h.1]; exact ⟨Nat.zero_le _, fun h0 => absurd h0 (lt_irrefl 0)⟩
    · rw [h.1]; exact ⟨le_refl _, fun _ => h.2⟩

theorem step_balance (p : Process) (op : Op) :
    (step p op).events.countP Event.isFinished +
        (if (step p op).process.m_state = ProcessState.Running then 1 else 0) ≤
      (if (op.isStart && decide ((step p op).process.m_state = ProcessState.Running)) = true
        then 1 else 0) +
        (if p.m_state = ProcessState.Running then 1 else 0) := by
  cases hs : op.isStart with
  | true =>
    cases op <;> simp [Op.isStart] at hs
    simp only [step, start_no_finished, Bool.true_and, decide_eq_true_eq]
    split_ifs <;> omega
  | false =>
    rcases step_cases p op hs with h | h
    · rw [h.1, h.2]
      simp
    · rw [h.1, h.2.1, h.2.2]
      simp

theorem run_balance (p : Process) (ops : List Op) :
    finishedCount (run p ops) +
        (if (finalProcess p (run p ops)).m_state = ProcessState.Running then 1 else 0) ≤
      enteredRunning (run p ops) + (if p.m_state = ProcessState.Running then 1 else 0) := by
  induction ops generalizing p with
  | nil => simp [run, finishedCount, eventsOf, enteredRunning, finalProcess]
  | cons op ops ih =>
    have hb := step_balance p op
    by_cases hc : (step p op).control = Control.returned
    · have h2 := ih (step p op).process
      have hr : run p (op :: ops) = (op, step p op) :: run (step p op).process ops := by
        simp only [run, hc, if_true]
      rw [hr, finalProcess_cons]
      unfold finishedCount enteredRunning eventsOf at h2 ⊢
      simp only [List.map_cons, List.flatten_cons, List.countP_append, List.countP_cons]
      simp only at h2 hb ⊢
      omega
    · have hr : run p (op :: ops) = [(op, step p op)] := by
        simp only [run, hc, if_false]
      rw [hr]
      unfold finishedCount enteredRunning eventsOf finalProcess
      simp only [List.map_cons, List.map_nil, List.flatten_cons, List.flatten_nil,
        List.append_nil, List.countP_cons, List.countP_nil, List.getLast?_singleton, Nat.zero_add]
      simp only at hb ⊢
      omega

/-- C8. One completion event: a call raises at most one `finished` signal,
and a call that raises it is made in state `Running` and leaves the state
`NotRunning`; so in every sequence of calls the number of `finished` signals
plus one if the process is still running is at most the number of
transitions into `Running` plus one if the sequence began in `Running`; and
from a state other than `Running`, as after a start that failed, no
`finished` signal is raised as long as no call of `start` succeeds. -/
theorem single_completion_event (p : Process) (ops : List Op) :
    (∀ op, (step p op).events.countP Event.isFinished ≤ 1 ∧
      (0 < (step p op).events.countP Event.isFinished →
        p.m_state = ProcessState.Running ∧
          (step p op).process.m_state = ProcessState.NotRunning)) ∧
    finishedCount (run p ops) +
        (if (finalProcess p (run p ops)).m_state = ProcessState.Running then 1 else 0) ≤
      enteredRunning (run p ops) + (if p.m_state = ProcessState.Running then 1 else 0) ∧
    (p.m_state ≠ ProcessState.Running → enteredRunning (run p ops) = 0 →
      finishedCount (run p ops) = 0) := by
  refine ⟨step_finished_spec p, run_balance p ops, ?_⟩
  intro h1 h2
  have h := run_balance p ops
  rw [h2, if_neg h1] at h
  omega

theorem start_createProcessFails (p : Process) :
    start p StartEnv.createProcessFails =
      ⟨{ p with m_state := ProcessState.NotRunning },
        [Event.error ProcessError.FailedToStart], Control.returned⟩ := by
  rfl

theorem run_lifeCycleRun_events :
    eventsOf (run Process.new lifeCycleRun) =
      [Event.error ProcessError.FailedToStart, Event.queued 250, Event.queued 250,
        Event.finished 3 ExitStatus.NormalExit] := by
  simp [lifeCycleRun, run, step, start_working, start_createProcessFails, Process.new,
    printBufferedOutput, printBufferedOutputLoop, tryToRetrieveExitCode, onProcessFinished,
    waitForFinished, eventLoopExec, STILL_ACTIVE, eventsOf, toInt32, crashed]

theorem run_lifeCycleRun_entered :
    enteredRunning (run Process.new lifeCycleRun) = 1 := by
  simp [lifeCycleRun, run, step, start_working, start_createProcessFails, Process.new,
    printBufferedOutput, printBufferedOutputLoop, tryToRetrieveExitCode, onProcessFinished,
    waitForFinished, eventLoopExec, STILL_ACTIVE, enteredRunning, Op.isStart, toInt32, crashed]

theorem run_mem_ops (p : Process) (ops : List Op) (x : Op × Result) (hx : x ∈ run p ops) :
    x.1 ∈ ops := by
  induction ops generalizing p with
  | nil => simp [run] at hx
  | cons op ops ih =>
    simp only [run] at hx
    split_ifs at hx
    · rcases List.mem_cons.mp hx with h | h
      · rw [h]; exact List.mem_cons_self _ _
      · exact List.mem_cons_of_mem _ (ih _ h)
    · rw [List.mem_singleton.mp hx]; exact List.mem_cons_self _ _

theorem enteredRunning_of_no_start (p : Process) (ops : List Op)
    (hops : ∀ op ∈ ops, op.isStart = false) : enteredRunning (run p ops) = 0 := by
  unfold enteredRunning
  rw [List.countP_eq_zero]
  intro x hx
  simp [hops x.1 (run_mem_ops p ops x hx)]

/-- Witness for C8: a life cycle with one start that fails and one that
succeeds raises one `finished` signal, and nothing is raised after the
failed start alone. -/
theorem single_completion_event_witness :
    finishedCount (run Process.new lifeCycleRun) = 1 ∧
      enteredRunning (run Process.new lifeCycleRun) = 1 ∧
      (finishedCount (run Process.new lifeCycleRun) +
          (if (finalProcess Process.new (run Process.new lifeCycleRun)).m_state =
            ProcessState.Running then 1 else 0) ≤
        enteredRunning (run Process.new lifeCycleRun) +
          (if Process.new.m_state = ProcessState.Running then 1 else 0)) ∧
      finishedCount
        (run (start Process.new StartEnv.createProcessFails).process afterFailedStartRun) = 0 :=
  ⟨by simp [finishedCount, run_lifeCycleRun_events, Event.isFinished],
    run_lifeCycleRun_entered,
    (single_completion_event Process.new lifeCycleRun).2.1,
    (single_completion_event (start Process.new StartEnv.createProcessFails).process
      afterFailedStartRun).2.2 (by decide)
      (enteredRunning_of_no_start _ _ (by simp [afterFailedStartRun, Op.isStart]))⟩

/-! ## `createEnvBlock` -/

end NMakeFile
